import Mathlib

/-!
# Verification of the braintrust-sdk telemetry core (`js/src/logger.ts`)

This file gives a shallow embedding in Lean 4 of the parts of
`js/src/logger.ts` that the claims under scrutiny are about:

* the JS value model needed by the record validation/sanitization code
  (`validateTags`, `validateAndSanitizeExperimentLogPartialArgs`,
  `validateAndSanitizeExperimentLogFullArgs`);
* the `SpanImpl` identity model (`constructor`, `startSpan`, `end`,
  `logInternal`);
* the `BackgroundLogger` queue (`log`, `registerDroppedItemCount`),
  per-batch submission (`submitLogsRequest`), deferred-value resolution
  (`unwrapLazyValues`) and the flush pass (`flushOnce`);
* the toplevel `Logger.log` / `Experiment.log` guard against mixing
  toplevel logging with spans.

JS numbers are modelled as rationals (`ℚ`); the validation code only
compares numbers against `0` and `1`, so none of the claims depend on
floating-point representation.  JS timestamps are rationals (span times)
or naturals (unix seconds in the queue-drop throttle).  UUID generation
is modelled by a counter that produces fresh identifiers.
-/

namespace BraintrustSdk

/-! ## JS value model

A JS value as seen by the (dynamically typed at runtime) validation code.
Object fields of an event are modelled as `Option JsVal`: `none` means the
key is absent, `some .vUndefined` means the key is present holding `undefined`.
-/

inductive JsVal : Type where
  | vNull
  | vUndefined
  | vBool (b : Bool)
  | vNum (q : ℚ)
  | vStr (s : String)
  | vArr (elems : List JsVal)
  | vObj (entries : List (String × JsVal))
deriving Repr

/-- JS truthiness of a value. -/
def JsVal.truthy : JsVal → Bool
  | .vNull => false
  | .vUndefined => false
  | .vBool b => b
  | .vNum q => decide (q ≠ 0)
  | .vStr s => decide (s ≠ "")
  | .vArr _ => true
  | .vObj _ => true

/-- `Object.entries`: entries of an object; index/character entries for
arrays and strings; the empty list for primitives. -/
def jsEntries : JsVal → List (String × JsVal)
  | .vObj es => es
  | .vArr xs => xs.enum.map (fun p => (toString p.1, p.2))
  | .vStr s => s.toList.enum.map (fun p => (toString p.1, JsVal.vStr p.2.toString))
  | _ => []

/-- The repository's `isEmpty` helper (from `js/src/util.ts`, not under
`src/`). Modelled from the spec: a value is "empty" exactly when it is
`undefined` or `null`. -/
def isEmptyJs : JsVal → Bool
  | .vNull => true
  | .vUndefined => true
  | _ => false

/-! ## Log events

The fields of `ExperimentLogPartialArgs` / `ExperimentLogFullArgs` that the
validation code inspects.  `none` = key absent from the event object. -/

structure LogEvent where
  input : Option JsVal := none
  inputs : Option JsVal := none
  output : Option JsVal := none
  expected : Option JsVal := none
  scores : Option JsVal := none
  metadata : Option JsVal := none
  metrics : Option JsVal := none
  tags : Option JsVal := none
  datasetRecordId : Option JsVal := none
deriving Repr

/-- The value a field access `event.f` yields: `undefined` when the key is
absent. -/
def keyVal (f : Option JsVal) : JsVal := f.getD .vUndefined

/-- Truthiness of `event.f` (also covers the `"f" in event && event.f`
idiom: an absent key reads as `undefined`, which is falsy). -/
def fieldTruthy (f : Option JsVal) : Bool := (keyVal f).truthy

/-! ## `validateTags` (logger.ts lines 2733-2744)

The source allocates `const seen = new Set<string>()` and checks
`seen.has(tag)`, but never executes `seen.add(tag)`; the `duplicate tag`
branch is therefore unreachable.  The embedding mirrors this: `seen` is
threaded unchanged through the recursion. -/

def validateTagsGo (seen : List String) : List JsVal → Except String Unit
  | [] => .ok ()
  | t :: rest =>
    match t with
    | .vStr s =>
      if s ∈ seen then .error ("duplicate tag: " ++ s)
      else validateTagsGo seen rest
    | _ => .error "tags must be strings"

def validateTags (tags : List JsVal) : Except String Unit :=
  validateTagsGo [] tags

/-- The `tags` field as used at the call site `validateTags(event.tags)`:
`for..of` iterates arrays elementwise and strings characterwise, and throws
a `TypeError` on any other (truthy) value. -/
def validateTagsVal : JsVal → Except String Unit
  | .vArr xs => validateTags xs
  | .vStr s => validateTags (s.toList.map (fun c => JsVal.vStr c.toString))
  | _ => .error "TypeError: tags is not iterable"

/-! ## Score sanitization (logger.ts lines 2749-2773) -/

/-- One pass of the `for [name, score] of Object.entries(event.scores)`
loop body: `null`/`undefined` scores are skipped; booleans are coerced to
`0`/`1` (written back into the object); non-numbers are rejected; numbers
outside `[0, 1]` are rejected. -/
def sanitizeScoreEntry : JsVal → Except String JsVal
  | .vNull => .ok .vNull
  | .vUndefined => .ok .vUndefined
  | .vBool b => .ok (.vNum (if b then 1 else 0))
  | .vNum q =>
    if q < 0 ∨ q > 1 then .error "score values must be between 0 and 1"
    else .ok (.vNum q)
  | _ => .error "score values must be numbers"

/-- The loop over the score entries: the first offending entry throws. -/
def sanitizeScoreEntries : List (String × JsVal) → Except String (List (String × JsVal))
  | [] => .ok []
  | (name, score) :: rest =>
    match sanitizeScoreEntry score with
    | .error e => .error e
    | .ok score₁ =>
      match sanitizeScoreEntries rest with
      | .error e => .error e
      | .ok restOut => .ok ((name, score₁) :: restOut)

/-- The whole `if (event.scores)` block, given a truthy `event.scores`
value: arrays are rejected; objects have their entries validated and
coerced in place; other (truthy) values have `Object.entries` validated
(index/character entries for strings; no entries for other primitives) and
are returned unchanged — the boolean write-back can only occur for object
entries. -/
def sanitizeScoresVal : JsVal → Except String JsVal
  | .vArr _ => .error "scores must be an object, not an array"
  | .vObj es =>
    match sanitizeScoreEntries es with
    | .error e => .error e
    | .ok esOut => .ok (JsVal.vObj esOut)
  | other =>
    match sanitizeScoreEntries (jsEntries other) with
    | .error e => .error e
    | .ok _ => .ok other

/-- The `scores` field check: skipped when the field is absent or falsy. -/
def checkScoresField (f : Option JsVal) : Except String (Option JsVal) :=
  if fieldTruthy f then
    match sanitizeScoresVal (keyVal f) with
    | .error e => .error e
    | .ok v => .ok (some v)
  else .ok f

/-- The `if (event.metadata)` block (lines 2776-2782): every key returned
by `Object.keys` is a string, so the `metadata keys must be strings` branch
is unreachable; the loop has no other effect. -/
def checkMetadataField (_f : Option JsVal) : Except String Unit := .ok ()

/-- Body of the `for [key, value] of Object.entries(event.metrics)` loop
(lines 2785-2793): defined non-numeric metric values are rejected (note
`null` is defined here: `null !== undefined`).  The key-string check is
unreachable as for metadata. -/
def validateMetricEntries : List (String × JsVal) → Except String Unit
  | [] => .ok ()
  | (_, v) :: rest =>
    match v with
    | .vUndefined => validateMetricEntries rest
    | .vNum _ => validateMetricEntries rest
    | _ => .error "metric values must be numbers"

/-- The `metrics` field check: skipped when the field is absent or falsy. -/
def checkMetricsField (f : Option JsVal) : Except String Unit :=
  if fieldTruthy f then validateMetricEntries (jsEntries (keyVal f))
  else .ok ()

/-- The `tags` field check (lines 2802-2804). -/
def checkTagsField (f : Option JsVal) : Except String Unit :=
  if fieldTruthy f then validateTagsVal (keyVal f)
  else .ok ()

/-- The value of `input` in `{ input: inputs, ...rest }`: a present `input`
key in `rest` overrides the `input: inputs` entry written first. -/
def renamedInputVal (input : Option JsVal) (inputsVal : JsVal) : JsVal :=
  match input with
  | some v => v
  | none => inputsVal

/-- `validateAndSanitizeExperimentLogPartialArgs` (logger.ts lines
2746-2812), as a pure function from the event to either a thrown error or
the sanitized event. -/
def validateAndSanitizeExperimentLogPartialArgs (event : LogEvent) :
    Except String LogEvent :=
  match checkScoresField event.scores with
  | .error e => .error e
  | .ok scoresOut =>
  match checkMetadataField event.metadata with
  | .error e => .error e
  | .ok () =>
  match checkMetricsField event.metrics with
  | .error e => .error e
  | .ok () =>
  if fieldTruthy event.input && fieldTruthy event.inputs then
    .error "Only one of input or inputs (deprecated) can be specified. Prefer input."
  else
  match checkTagsField event.tags with
  | .error e => .error e
  | .ok () =>
  match event.inputs with
  | some inputsVal =>
    .ok { event with
            scores := scoresOut
            input := some (renamedInputVal event.input inputsVal)
            inputs := none }
  | none => .ok { event with scores := scoresOut }

/-- `validateAndSanitizeExperimentLogFullArgs` (logger.ts lines 2817-2849). -/
def validateAndSanitizeExperimentLogFullArgs (event : LogEvent)
    (hasDataset : Bool) : Except String LogEvent :=
  if (event.input.isSome && !isEmptyJs (keyVal event.input) &&
      event.inputs.isSome && !isEmptyJs (keyVal event.inputs)) ||
     (!event.input.isSome && !event.inputs.isSome) then
    .error "Exactly one of input or inputs (deprecated) must be specified. Prefer input."
  else if isEmptyJs (keyVal event.output) then
    .error "output must be specified"
  else if isEmptyJs (keyVal event.scores) then
    .error "scores must be specified"
  else if hasDataset && (match event.datasetRecordId with
                          | none => true
                          | some .vUndefined => true
                          | some _ => false) then
    .error "datasetRecordId must be specified when using a dataset"
  else if !hasDataset && (match event.datasetRecordId with
                           | none => false
                           | some .vUndefined => false
                           | some _ => true) then
    .error "datasetRecordId cannot be specified when not using a dataset"
  else .ok event

/-! ## Span identity model (`SpanImpl`, logger.ts lines 3333-3571)

Span and row identifiers are produced by `uuidv4()`; this is modelled by a
counter (`gen : ℕ`) handing out fresh naturals.  Timestamps
(`getCurrentUnixTimestamp()` returns fractional seconds) are rationals. -/

/-- The `ParentSpanIds` argument of the `SpanImpl` constructor. -/
structure ParentSpanIds where
  spanId : ℕ
  rootSpanId : ℕ
deriving Repr

/-- The `metrics` sub-object of a span record, as written by the
constructor (`{start}`) and by `end()` (`{end}`). -/
structure SpanMetrics where
  start : Option ℚ := none
  endTime : Option ℚ := none
deriving Repr

/-- The identity-relevant part of the record enqueued by
`SpanImpl.logInternal` (the `partialRecord` of lines 3434-3441): `id`,
`span_id`, `root_span_id`, `span_parents` (absent — `undefined` — for
roots, so it is dropped by `JSON.stringify`), the metrics of
`internalData`, and the `IS_MERGE_FIELD` flag. -/
structure SpanRecord where
  id : ℕ
  span_id : ℕ
  root_span_id : ℕ
  span_parents : Option (List ℕ)
  metrics : Option SpanMetrics
  is_merge : Bool
deriving Repr

/-- The mutable identity state of a `SpanImpl` object. -/
structure SpanImpl where
  rowId : ℕ
  spanId : ℕ
  rootSpanId : ℕ
  spanParents : Option (List ℕ)
  loggedEndTime : Option ℚ
  isMerge : Bool
deriving Repr

/-- Truthiness of `this.loggedEndTime` / `partialRecord.metrics?.end`:
falsy when unset or `0`. -/
def endTimeTruthy : Option ℚ → Bool
  | none => false
  | some q => decide (q ≠ 0)

/-- `SpanImpl.logInternal` (lines 3415-3479) restricted to the
identity/metrics fields the claims are about: builds the partial record
from the span's identity fields and the `internalData` metrics, updates
`loggedEndTime` when the record carries a truthy `metrics.end`
(line 3455-3457), and enqueues the record on the background logger (the
record is returned; the queue is modelled separately).  The event payload
and the tags-on-non-root check are outside the scope of the claims using
this model. -/
def SpanImpl.logInternalMetrics (s : SpanImpl) (metrics : Option SpanMetrics) :
    SpanImpl × SpanRecord :=
  let record : SpanRecord :=
    { id := s.rowId
      span_id := s.spanId
      root_span_id := s.rootSpanId
      span_parents := s.spanParents
      metrics := metrics
      is_merge := s.isMerge }
  let s' :=
    if endTimeTruthy ((metrics.map SpanMetrics.endTime).join) then
      { s with loggedEndTime := (metrics.map SpanMetrics.endTime).join }
    else s
  (s', record)

/-- The `SpanImpl` constructor (lines 3333-3401): `_id = event.id ??
uuidv4()`, `spanId = uuidv4()`; under a parent, `rootSpanId` is inherited
and `spanParents = [parent.spanId]`; for a root, `rootSpanId = spanId` and
`spanParents` is `undefined`.  The first record is logged with
`isMerge = false` (carrying `metrics.start`), then `isMerge` is set.
Returns the new span, the enqueued creation record, and the advanced
uuid counter. -/
def SpanImpl.create (parentSpanIds : Option ParentSpanIds)
    (eventId : Option ℕ) (startTime : ℚ) (gen : ℕ) :
    SpanImpl × SpanRecord × ℕ :=
  let (rowId, gen₁) :=
    match eventId with
    | some i => (i, gen)
    | none => (gen, gen + 1)
  let spanId := gen₁
  let gen₂ := gen₁ + 1
  let (rootSpanId, spanParents) :=
    match parentSpanIds with
    | some p => (p.rootSpanId, some [p.spanId])
    | none => (spanId, (none : Option (List ℕ)))
  let s : SpanImpl :=
    { rowId := rowId
      spanId := spanId
      rootSpanId := rootSpanId
      spanParents := spanParents
      loggedEndTime := none
      isMerge := false }
  let (s₁, rec) :=
    s.logInternalMetrics (some { start := some startTime, endTime := none })
  ({ s₁ with isMerge := true }, rec, gen₂)

/-- `SpanImpl.startSpan` (lines 3510-3526) for a child created directly
under this span (no `parent` export-token argument): `parentSpanIds =
{ spanId: this.spanId, rootSpanId: this.rootSpanId }`. -/
def SpanImpl.startSpan (s : SpanImpl) (startTime : ℚ) (gen : ℕ) :
    SpanImpl × SpanRecord × ℕ :=
  SpanImpl.create (some { spanId := s.spanId, rootSpanId := s.rootSpanId })
    none startTime gen

/-- `SpanImpl.end` (lines 3528-3539): if `loggedEndTime` is falsy, the end
time is `args?.endTime ?? getCurrentUnixTimestamp()` and `metrics.end` is
logged; otherwise `internalData` stays empty and the previously logged end
time is returned.  Either way `logInternal` is called, enqueueing a
record.  Returns the updated span, the returned timestamp, and the
enqueued record. -/
def SpanImpl.endSpan (s : SpanImpl) (argsEndTime : Option ℚ) (now : ℚ) :
    SpanImpl × ℚ × SpanRecord :=
  if endTimeTruthy s.loggedEndTime then
    let (s', rec) := s.logInternalMetrics none
    (s', s.loggedEndTime.getD 0, rec)
  else
    let endTime := argsEndTime.getD now
    let (s', rec) :=
      s.logInternalMetrics (some { start := none, endTime := some endTime })
    (s', endTime, rec)

/-- Whether a record contains a `metrics.end` entry (an "end-metrics"
record). -/
def SpanRecord.hasMetricsEnd (r : SpanRecord) : Bool :=
  match r.metrics with
  | some m => m.endTime.isSome
  | none => false

/-! ## `BackgroundLogger` queue and drop accounting
(logger.ts lines 1244-1266 and 1431-1450)

Queued items are abstract (`ℕ`); unix timestamps are naturals.  The
`console.warn` side effect of `registerDroppedItemCount` is reported as an
`Option ℕ` carrying the warned count. -/

structure BgQueueState where
  items : List ℕ
  queueDropExceedingMaxsize : Option ℕ
  numDropped : ℕ
  lastLoggedTimestamp : ℕ
  queueDropLoggingPeriod : ℕ := 60
deriving Repr

/-- `BackgroundLogger.registerDroppedItemCount` (lines 1431-1450): returns
at once on a non-positive count; otherwise adds the count to
`numDropped`, and if more than `queueDropLoggingPeriod` seconds have
passed since the last warning, warns with the accumulated count (returned
as `some`) and resets the accumulator and timestamp. -/
def registerDroppedItemCount (st : BgQueueState) (numItems : ℕ)
    (timeNow : ℕ) : BgQueueState × Option ℕ :=
  if numItems = 0 then (st, none)
  else
    let st₁ := { st with numDropped := st.numDropped + numItems }
    if st₁.queueDropLoggingPeriod < timeNow - st₁.lastLoggedTimestamp then
      ({ st₁ with numDropped := 0, lastLoggedTimestamp := timeNow },
       some st₁.numDropped)
    else (st₁, none)

/-- `BackgroundLogger.log` (lines 1244-1266): with a configured maximum
queue size, `numElementsToAdd = min(max(maxsize - items.length, 0),
newItems.length)`; the prefix of that length is appended to the queue and
the suffix is dropped and registered.  (`Math.max(·, 0)` coincides with
truncated natural subtraction.  The flush trigger and the payload-dump of
dropped items act on other state and are modelled separately.) -/
def bgLog (st : BgQueueState) (newItems : List ℕ) (timeNow : ℕ) :
    BgQueueState × Option ℕ :=
  let numElementsToAdd :=
    match st.queueDropExceedingMaxsize with
    | none => newItems.length
    | some m => min (m - st.items.length) newItems.length
  let addedItems := newItems.take numElementsToAdd
  let droppedItems := newItems.drop numElementsToAdd
  let st₁ := { st with items := st.items ++ addedItems }
  if droppedItems.length ≠ 0 then
    registerDroppedItemCount st₁ droppedItems.length timeNow
  else (st₁, none)

/-- The queue-overflow scenario: fold `bgLog` over a sequence of
single-item `log` calls (all at unix time `0`, so the warn throttle never
fires and `numDropped` accumulates), returning the final state. -/
def bgLogSingletons (st : BgQueueState) (xs : List ℕ) : BgQueueState :=
  xs.foldl (fun acc x => (bgLog acc [x] 0).1) st

/-! ## Per-batch submission (`BackgroundLogger.submitLogsRequest`,
logger.ts lines 1360-1429)

The transport is an oracle: `primaryOk i` / `legacyOk i` tell whether the
`logs3` / legacy `logs` post of the `i`-th loop iteration succeeds.  The
observables are: how many loop iterations (submission attempts) ran,
whether the batch was delivered, whether the final-attempt failure was
rethrown (`syncFlush`), and whether the payload was written to the
failed-payloads directory. -/

structure SubmitOutcome where
  attempts : ℕ
  delivered : Bool
  threw : Bool
  wroteFailedPayload : Bool
deriving Repr

/-- The `for (let i = 0; i < this.numTries; i++)` loop of
`submitLogsRequest`, with `fuel` iterations remaining and `i` the current
index (the wrapper keeps `i + fuel = numTries`, so `isRetrying`, i.e.
`i + 1 < numTries`, is `fuel ≠ 1` at the head iteration).  An iteration:
post to `logs3`; on failure post the legacy shape to `logs`; the iteration
fails only if both fail.  On the final failed iteration the payload is
written to the failed-payloads directory when configured, and the error is
rethrown when `syncFlush`; otherwise the loop falls through and the batch
is dropped (never re-queued). -/
def submitGo (primaryOk legacyOk : ℕ → Bool) (syncFlush failedDir : Bool) :
    ℕ → ℕ → SubmitOutcome
  | _, 0 =>
    { attempts := 0, delivered := false, threw := false
      wroteFailedPayload := false }
  | i, fuel + 1 =>
    let attemptOk := if primaryOk i then true else legacyOk i
    if attemptOk then
      { attempts := 1, delivered := true, threw := false
        wroteFailedPayload := false }
    else
      let isRetrying : Bool := fuel != 0
      let wrote : Bool := !isRetrying && failedDir
      if !isRetrying && syncFlush then
        { attempts := 1, delivered := false, threw := true
          wroteFailedPayload := wrote }
      else
        let rest := submitGo primaryOk legacyOk syncFlush failedDir (i + 1) fuel
        { attempts := rest.attempts + 1, delivered := rest.delivered
          threw := rest.threw
          wroteFailedPayload := wrote || rest.wroteFailedPayload }

/-- `BackgroundLogger.submitLogsRequest` for one batch. -/
def submitLogsRequest (numTries : ℕ) (syncFlush : Bool) (failedDir : Bool)
    (primaryOk legacyOk : ℕ → Bool) : SubmitOutcome :=
  submitGo primaryOk legacyOk syncFlush failedDir 0 numTries

/-- The constructor default of `BackgroundLogger.numTries`
(logger.ts line 1169). -/
def defaultNumTries : ℕ := 3

/-! ## Deferred-value resolution (`BackgroundLogger.unwrapLazyValues`,
logger.ts lines 1331-1358)

`LazyValue` (from `js/src/util.ts`, not under `src/`) is modelled from the
spec: a single-flight memoized cell — every `get()` observes the same
resolved value or the same rejection.  A queued cell is therefore
represented by its settled result, `Except String ℕ` over abstract record
values. -/

/-- A drained queue entry: the settled result of the cell's computation. -/
abbrev LazyCell := Except String ℕ

/-- `Promise.all(wrappedItems.map(x => x.get()))`: succeeds with all
values exactly when no cell is rejected. -/
def resolveAll : List LazyCell → Except String (List ℕ)
  | [] => .ok []
  | c :: rest =>
    match c with
    | .error e => .error e
    | .ok v =>
      match resolveAll rest with
      | .error e => .error e
      | .ok vs => .ok (v :: vs)

/-- `mergeRowBatch` (from `@braintrust/core`, not under `src/`).
Modelled from the spec: resolved records are merged keyed by row id;
records are abstract here and each carries a distinct row id, so every
record forms its own one-element group.  The property the claims rely on
is only that a batch of `n` records merges to `n` groups (in particular a
nonempty batch merges to a nonempty result). -/
def mergeRowBatchModel (xs : List ℕ) : List (List ℕ) :=
  xs.map (fun x => [x])

/-- The result of `unwrapLazyValues`: how many tries ran, the `setTimeout`
delays awaited (in ms, in order), the outcome (`.error` = rethrown in
sync-flush mode; `.ok []` after the batch is dropped), and whether the
post-loop `Dropping batch` warning was reached. -/
structure UnwrapOutcome where
  tries : ℕ
  delaysMs : List ℕ
  outcome : Except String (List (List ℕ))
  droppedBatch : Bool
deriving Repr

/-- The `for (let i = 0; i < this.numTries; ++i)` loop of
`unwrapLazyValues`.  Because the cells are memoized (spec §4.1), every
try observes the same settled results: a try succeeds iff no cell is
rejected.  On a failed try: if it is the last and `syncFlush`, the error
is rethrown; otherwise a 100ms delay is awaited and the loop continues;
when the loop exhausts, the batch is dropped with a warning and `[]` is
returned. -/
def unwrapGo (syncFlush : Bool) (cells : List LazyCell) :
    ℕ → UnwrapOutcome
  | 0 =>
    { tries := 0, delaysMs := [], outcome := .ok [], droppedBatch := true }
  | fuel + 1 =>
    match resolveAll cells with
    | .ok vals =>
      { tries := 1, delaysMs := []
        outcome := .ok (mergeRowBatchModel vals), droppedBatch := false }
    | .error e =>
      let isRetrying : Bool := fuel != 0
      if !isRetrying && syncFlush then
        { tries := 1, delaysMs := [], outcome := .error e
          droppedBatch := false }
      else
        let rest := unwrapGo syncFlush cells fuel
        { tries := rest.tries + 1, delaysMs := 100 :: rest.delaysMs
          outcome := rest.outcome, droppedBatch := rest.droppedBatch }

/-- `BackgroundLogger.unwrapLazyValues`. -/
def unwrapLazyValues (numTries : ℕ) (syncFlush : Bool)
    (cells : List LazyCell) : UnwrapOutcome :=
  unwrapGo syncFlush cells numTries

/-! ## The flush pass (`BackgroundLogger.flushOnce`,
logger.ts lines 1280-1329)

A pass drains the queue (`this.items = []`), resolves the drained cells,
and submits the resolved records; items `log()`-ed concurrently during the
pass are modelled by a schedule: pass `k` of a run sees `(sched.get k).1`
arrive while it is processing and its submissions succeed iff
`(sched.get k).2`.  After a successful pass the source re-checks
`this.items.length > 0` and recurses.  Batch construction (`batchItems`)
partitions the records without dropping any; since the claims under
scrutiny do not depend on the partition, a pass submits its resolved
groups as one submission round. -/

structure FlushOutcome where
  flushed : List (List ℕ)
  finalQueue : List LazyCell
  observedEmpty : Bool
  errored : Bool
deriving Repr

/-- One or more passes of `flushOnce`.  `observedEmpty` records whether
the run ever observed the queue empty: either a drain took an empty queue,
or the final `this.items.length > 0` re-check saw it empty.  `errored`
records an exception escaping the pass (a rethrown resolution error or the
`AggregateError` of a failed submission round). -/
def flushOnceGo (numTries : ℕ) (syncFlush : Bool) :
    ℕ → List LazyCell → List (List LazyCell × Bool) → FlushOutcome
  | 0, queue, _ =>
    -- out of fuel; unreachable when the fuel exceeds the schedule length
    { flushed := [], finalQueue := queue, observedEmpty := false
      errored := true }
  | fuel + 1, queue, sched =>
    let arrivals := (sched.headD ([], true)).1
    let submitOk := (sched.headD ([], true)).2
    -- drain: wrappedItems := this.items; this.items := []
    let wrappedItems := queue
    let queue₁ := arrivals
    let uw := unwrapLazyValues numTries syncFlush wrappedItems
    match uw.outcome with
    | .error _ =>
      { flushed := [], finalQueue := queue₁, observedEmpty := false
        errored := true }
    | .ok allItems =>
      if allItems.isEmpty then
        -- `if (allItems.length === 0) return;` — early return with no
        -- re-check of the queue
        { flushed := [], finalQueue := queue₁
          observedEmpty := wrappedItems.isEmpty, errored := false }
      else if ¬submitOk then
        -- AggregateError from the submission round
        { flushed := [], finalQueue := queue₁, observedEmpty := false
          errored := true }
      else if queue₁.isEmpty then
        -- final re-check observed the queue empty
        { flushed := allItems, finalQueue := [], observedEmpty := true
          errored := false }
      else
        let rest := flushOnceGo numTries syncFlush fuel queue₁ sched.tail
        { flushed := allItems ++ rest.flushed
          finalQueue := rest.finalQueue
          observedEmpty := rest.observedEmpty, errored := rest.errored }

/-- `BackgroundLogger.flushOnce`, started on `queue` against an arrival
schedule (fuel `sched.length + 1` always suffices, since a pass that
recurses consumes a schedule entry and a run past the schedule sees no
arrivals and stops). -/
def flushOnce (numTries : ℕ) (syncFlush : Bool) (queue : List LazyCell)
    (sched : List (List LazyCell × Bool)) : FlushOutcome :=
  flushOnceGo numTries syncFlush (sched.length + 1) queue sched

/-! ## Toplevel `log` vs spans guard (`Logger.log` lines 966-988,
`Experiment.log` lines 3018-3032, `startSpan` lines 1036-1039 / 3071-3074)
-/

/-- The guard-relevant state of a `Logger` / `Experiment`:
`calledStartSpan` starts `false` (lines 926 / 2968) and is set by
`startSpan`; `lastStartTime` threads the end time of the previous toplevel
`log` into the next one's start time. -/
structure ToplevelLogState where
  calledStartSpan : Bool := false
  lastStartTime : ℚ
deriving Repr

/-- `Logger.startSpan` / `Experiment.startSpan`: sets `calledStartSpan`
and creates a root span via `startSpanImpl` (no parent span ids). -/
def toplevelStartSpan (st : ToplevelLogState) (gen : ℕ) :
    ToplevelLogState × SpanImpl × SpanRecord × ℕ :=
  let (span, record, gen') := SpanImpl.create none none st.lastStartTime gen
  ({ st with calledStartSpan := true }, span, record, gen')

/-- `Logger.log`: throws the spans guard error if `startSpan` was called
and `allowConcurrentWithSpans` is not set; otherwise creates a span
carrying the event (whose `logInternal` validates the event before
anything is queued) and immediately ends it.  Returns the records placed
on the background queue. -/
def loggerLog (st : ToplevelLogState) (event : LogEvent)
    (allowConcurrentWithSpans : Bool) (gen : ℕ) (now : ℚ) :
    Except String (ToplevelLogState × List SpanRecord × ℕ) :=
  if st.calledStartSpan ∧ ¬allowConcurrentWithSpans then
    .error "Cannot run toplevel `log` method while using spans. To log to the span, call `logger.traced` and then log with `span.log`"
  else
    match validateAndSanitizeExperimentLogPartialArgs event with
    | .error e => .error e
    | .ok _ =>
      let (span, record₁, gen') := SpanImpl.create none none st.lastStartTime gen
      let (_, endTime, record₂) := span.endSpan none now
      .ok ({ st with lastStartTime := endTime }, [record₁, record₂], gen')

/-- `Experiment.log`: the same guard, then
`validateAndSanitizeExperimentLogFullArgs` followed by the partial
sanitization inside span creation. -/
def experimentLog (st : ToplevelLogState) (event : LogEvent)
    (allowConcurrentWithSpans : Bool) (hasDataset : Bool) (gen : ℕ)
    (now : ℚ) : Except String (ToplevelLogState × List SpanRecord × ℕ) :=
  if st.calledStartSpan ∧ ¬allowConcurrentWithSpans then
    .error "Cannot run toplevel `log` method while using spans. To log to the span, call `experiment.traced` and then log with `span.log`"
  else
    match validateAndSanitizeExperimentLogFullArgs event hasDataset with
    | .error e => .error e
    | .ok event' =>
      match validateAndSanitizeExperimentLogPartialArgs event' with
      | .error e => .error e
      | .ok _ =>
        let (span, record₁, gen') :=
          SpanImpl.create none none st.lastStartTime gen
        let (_, endTime, record₂) := span.endSpan none now
        .ok ({ st with lastStartTime := endTime }, [record₁, record₂], gen')

/-! ## Lemmas about score sanitization -/

/-- The write-back of the scores loop on one value: booleans become
`0`/`1`, all other values are left unchanged. -/
def scoreCoerceV : JsVal → JsVal
  | .vBool b => .vNum (if b then 1 else 0)
  | v => v

/-- The write-back on one entry. -/
def scoreCoerce : String × JsVal → String × JsVal
  | (n, v) => (n, scoreCoerceV v)

/-- The score values the loop accepts: skipped (`null`/`undefined`),
booleans, or numbers within `[0, 1]`. -/
def scoreOkB : JsVal → Bool
  | .vNull => true
  | .vUndefined => true
  | .vBool _ => true
  | .vNum q => decide (0 ≤ q ∧ q ≤ 1)
  | _ => false

theorem sanitizeScoreEntry_ok {v v₁ : JsVal}
    (h : sanitizeScoreEntry v = .ok v₁) :
    scoreOkB v = true ∧ v₁ = scoreCoerceV v := by
  cases v with
  | vNull => injection h with h; subst h; exact ⟨rfl, rfl⟩
  | vUndefined => injection h with h; subst h; exact ⟨rfl, rfl⟩
  | vBool b => injection h with h; subst h; exact ⟨rfl, rfl⟩
  | vNum q =>
    by_cases hq : q < 0 ∨ q > 1
    · simp only [sanitizeScoreEntry, if_pos hq] at h
      exact Except.noConfusion h
    · simp only [sanitizeScoreEntry, if_neg hq] at h
      injection h with h
      subst h
      push_neg at hq
      refine ⟨?_, rfl⟩
      simp only [scoreOkB, decide_eq_true_eq]
      exact ⟨hq.1, hq.2⟩
  | vStr s => exact Except.noConfusion h
  | vArr xs => exact Except.noConfusion h
  | vObj es => exact Except.noConfusion h

theorem sanitizeScoreEntry_all_ok {v : JsVal} (h : scoreOkB v = true) :
    sanitizeScoreEntry v = .ok (scoreCoerceV v) := by
  cases v with
  | vNum q =>
    simp only [scoreOkB, decide_eq_true_eq] at h
    have hq : ¬(q < 0 ∨ q > 1) := by
      push_neg
      exact h
    simp [sanitizeScoreEntry, hq, scoreCoerceV]
  | vStr s => simp [scoreOkB] at h
  | vArr xs => simp [scoreOkB] at h
  | vObj es => simp [scoreOkB] at h
  | vNull => rfl
  | vUndefined => rfl
  | vBool b => rfl

theorem sanitizeScoreEntries_ok {es out : List (String × JsVal)}
    (h : sanitizeScoreEntries es = .ok out) :
    out = es.map scoreCoerce ∧ ∀ p ∈ es, scoreOkB p.2 = true := by
  induction es generalizing out with
  | nil =>
    simp only [sanitizeScoreEntries, Except.ok.injEq] at h
    simp [← h]
  | cons hd tl ih =>
    obtain ⟨n, v⟩ := hd
    cases hv : sanitizeScoreEntry v with
    | error e =>
      simp only [sanitizeScoreEntries, hv] at h
      exact Except.noConfusion h
    | ok v₁ =>
      cases htl : sanitizeScoreEntries tl with
      | error e =>
        simp only [sanitizeScoreEntries, hv, htl] at h
        exact Except.noConfusion h
      | ok restOut =>
        simp only [sanitizeScoreEntries, hv, htl] at h
        injection h with h
        subst h
        obtain ⟨hok, hco⟩ := sanitizeScoreEntry_ok hv
        obtain ⟨hmap, hall⟩ := ih htl
        refine ⟨by simp [scoreCoerce, hmap, hco], ?_⟩
        intro p hp
        rcases List.mem_cons.mp hp with rfl | hp
        · exact hok
        · exact hall p hp

theorem sanitizeScoreEntries_all_ok {es : List (String × JsVal)}
    (h : ∀ p ∈ es, scoreOkB p.2 = true) :
    sanitizeScoreEntries es = .ok (es.map scoreCoerce) := by
  induction es with
  | nil => rfl
  | cons hd tl ih =>
    obtain ⟨n, v⟩ := hd
    have htl := ih (fun p hp => h p (List.mem_cons_of_mem _ hp))
    have hv := sanitizeScoreEntry_all_ok (h (n, v) (List.mem_cons_self _ _))
    simp [sanitizeScoreEntries, hv, htl, scoreCoerce]

theorem scoreCoerceV_fixed {v : JsVal} (h : scoreOkB v = true) :
    scoreOkB (scoreCoerceV v) = true
      ∧ scoreCoerceV (scoreCoerceV v) = scoreCoerceV v := by
  cases v with
  | vBool b => cases b <;> exact ⟨by decide, rfl⟩
  | vNull => exact ⟨h, rfl⟩
  | vUndefined => exact ⟨h, rfl⟩
  | vNum q => exact ⟨h, rfl⟩
  | vStr s => exact ⟨h, rfl⟩
  | vArr xs => exact ⟨h, rfl⟩
  | vObj es => exact ⟨h, rfl⟩

/-- Sanitized score entries pass sanitization again unchanged. -/
theorem sanitizeScoreEntries_idem {es out : List (String × JsVal)}
    (h : sanitizeScoreEntries es = .ok out) :
    sanitizeScoreEntries out = .ok out := by
  obtain ⟨rfl, hall⟩ := sanitizeScoreEntries_ok h
  have hall' : ∀ p ∈ es.map scoreCoerce, scoreOkB p.2 = true := by
    intro p hp
    obtain ⟨q, hq, rfl⟩ := List.mem_map.mp hp
    obtain ⟨nn, vv⟩ := q
    exact (scoreCoerceV_fixed (hall _ hq)).1
  have hmap : (es.map scoreCoerce).map scoreCoerce = es.map scoreCoerce := by
    rw [List.map_map]
    apply List.map_congr_left
    intro p hp
    obtain ⟨nn, vv⟩ := p
    show scoreCoerce (scoreCoerce (nn, vv)) = scoreCoerce (nn, vv)
    simp [scoreCoerce, (scoreCoerceV_fixed (hall _ hp)).2]
  rw [sanitizeScoreEntries_all_ok hall', hmap]

/-! ## C4: duplicate / non-string tag validation -/

/-- **C4** (code bug): `validateTags` is intended to reject duplicate tags
— it allocates a `seen` set and has a `duplicate tag` error branch — but
never adds any tag to `seen`, so duplicates are accepted: the event
`{tags: ["a", "a"]}` passes sanitization untouched.  Non-string tags are
rejected as the claim states. -/
theorem validateTags_duplicates_not_rejected :
    validateTags [JsVal.vStr "a", JsVal.vStr "a"] = .ok ()
    ∧ validateAndSanitizeExperimentLogPartialArgs
        { tags := some (.vArr [.vStr "a", .vStr "a"]) }
      = .ok { tags := some (.vArr [.vStr "a", .vStr "a"]) }
    ∧ validateTags [JsVal.vStr "a", JsVal.vNum 1]
      = .error "tags must be strings" :=
  ⟨rfl, rfl, rfl⟩

/-! ## C1: queue overflow drop policy -/

/-- `registerDroppedItemCount` never touches the queue itself. -/
theorem registerDroppedItemCount_items (st : BgQueueState) (n t : ℕ) :
    (registerDroppedItemCount st n t).1.items = st.items := by
  unfold registerDroppedItemCount
  by_cases h0 : n = 0
  · simp [h0]
  · simp only [h0, if_false]
    by_cases ht :
        st.queueDropLoggingPeriod < t - st.lastLoggedTimestamp <;> simp [ht]

/-- `registerDroppedItemCount` accounting: the retained counter plus the
warned-and-reset amount grows by exactly the registered count. -/
theorem registerDroppedItemCount_count (st : BgQueueState) (n t : ℕ) :
    (registerDroppedItemCount st n t).1.numDropped
        + ((registerDroppedItemCount st n t).2.getD 0)
      = st.numDropped + n := by
  unfold registerDroppedItemCount
  by_cases h0 : n = 0
  · simp [h0]
  · simp only [h0, if_false]
    by_cases ht :
        st.queueDropLoggingPeriod < t - st.lastLoggedTimestamp <;> simp [ht]

/-- Folding single-item `log` calls at unix time `0` (so the warn
throttle, `60 < 0 - 0`, never fires): the queue fills up to the maximum
and every further item increments the dropped counter. -/
theorem bgLogSingletons_spec (xs : List ℕ) :
    ∀ (st : BgQueueState) (m : ℕ),
      st.queueDropExceedingMaxsize = some m →
      st.queueDropLoggingPeriod = 60 →
      st.lastLoggedTimestamp = 0 →
      (bgLogSingletons st xs).items
          = st.items ++ xs.take (m - st.items.length)
        ∧ (bgLogSingletons st xs).numDropped
          = st.numDropped + (xs.length - (m - st.items.length)) := by
  induction xs with
  | nil =>
    intro st m hm hp hl
    simp [bgLogSingletons]
  | cons x xs ih =>
    intro st m hm hp hl
    have hstep : bgLogSingletons st (x :: xs)
        = bgLogSingletons (bgLog st [x] 0).1 xs := rfl
    by_cases hlen : st.items.length < m
    · have hk : min (m - st.items.length) (1 : ℕ) = 1 := by omega
      have hbg : bgLog st [x] 0
          = ({ st with items := st.items ++ [x] }, none) := by
        simp [bgLog, hm, hk]
      rw [hstep, hbg]
      obtain ⟨h1, h2⟩ := ih { st with items := st.items ++ [x] } m hm hp hl
      dsimp only at h1 h2
      simp only [List.length_append, List.length_singleton] at h1 h2
      refine ⟨?_, ?_⟩
      · rw [h1]
        have hsub : m - st.items.length = (m - (st.items.length + 1)) + 1 := by
          omega
        rw [hsub, List.take_succ_cons, List.append_assoc]
        rfl
      · rw [h2]
        simp only [List.length_cons]
        omega
    · have hk : min (m - st.items.length) (1 : ℕ) = 0 := by omega
      have hbg : bgLog st [x] 0
          = ({ st with numDropped := st.numDropped + 1 }, none) := by
        simp [bgLog, hm, hk, registerDroppedItemCount, hp, hl]
      rw [hstep, hbg]
      obtain ⟨h1, h2⟩ := ih { st with numDropped := st.numDropped + 1 } m hm hp hl
      dsimp only at h1 h2
      have hsub : m - st.items.length = 0 := by omega
      refine ⟨?_, ?_⟩
      · rw [h1]
        simp [hsub]
      · rw [h2]
        simp only [List.length_cons, hsub]
        omega

/-- **C1**: with a configured maximum queue size `m`,
`BackgroundLogger.log` appends exactly the prefix of the incoming batch
that fits under `m` (so the previously queued items, a prefix of the new
queue, are never evicted) and hands the size of the dropped suffix to
`registerDroppedItemCount`, which adds it to the dropped-item counter
(counting the warned-and-reset amount, the counter grows by exactly the
number of dropped items).  Scenario: 250 one-item `log` calls against an
empty queue with max size 100 queue exactly the first 100 items and count
exactly 150 as dropped. -/
theorem bgLog_drop_policy :
    (∀ (st : BgQueueState) (newItems : List ℕ) (t m : ℕ),
        st.queueDropExceedingMaxsize = some m →
        (bgLog st newItems t).1.items
            = st.items ++ newItems.take (min (m - st.items.length) newItems.length)
          ∧ (bgLog st newItems t).1.numDropped + ((bgLog st newItems t).2.getD 0)
              = st.numDropped
                + (newItems.length - min (m - st.items.length) newItems.length))
    ∧ (bgLogSingletons
        { items := [], queueDropExceedingMaxsize := some 100,
          numDropped := 0, lastLoggedTimestamp := 0 }
        (List.range 250)).items = List.range 100
    ∧ (bgLogSingletons
        { items := [], queueDropExceedingMaxsize := some 100,
          numDropped := 0, lastLoggedTimestamp := 0 }
        (List.range 250)).numDropped = 150 := by
  refine ⟨?_, ?_, ?_⟩
  case refine_2 =>
    obtain ⟨h1, _⟩ := bgLogSingletons_spec (List.range 250)
      { items := [], queueDropExceedingMaxsize := some 100,
        numDropped := 0, lastLoggedTimestamp := 0 } 100 rfl rfl rfl
    rw [h1]
    simp [List.take_range]
  case refine_3 =>
    obtain ⟨_, h2⟩ := bgLogSingletons_spec (List.range 250)
      { items := [], queueDropExceedingMaxsize := some 100,
        numDropped := 0, lastLoggedTimestamp := 0 } 100 rfl rfl rfl
    rw [h2]
    simp
  case refine_1 =>
    intro st newItems t m hm
    simp only [bgLog, hm]
    set k := min (m - st.items.length) newItems.length with hk
    have hdl : (newItems.drop k).length = newItems.length - k := by
      simp
    by_cases hd : (newItems.drop k).length = 0
    · simp only [hd, ne_eq, not_true_eq_false, if_false, Option.getD_none]
      refine ⟨trivial, ?_⟩
      show st.numDropped + 0 = st.numDropped + (newItems.length - k)
      omega
    · simp only [ne_eq, hd, not_false_eq_true, if_true]
      refine ⟨?_, ?_⟩
      · rw [registerDroppedItemCount_items]
      · rw [registerDroppedItemCount_count]
        show st.numDropped + (newItems.drop k).length
          = st.numDropped + (newItems.length - k)
        omega

/-- Witness for the conditional part of `bgLog_drop_policy`: a queue of
two items with max size 3 receiving four items keeps the queued items,
adds one, and counts three dropped. -/
theorem bgLog_drop_policy_witness :
    (bgLog { items := [7, 8], queueDropExceedingMaxsize := some 3,
             numDropped := 0, lastLoggedTimestamp := 0 } [1, 2, 3, 4] 0).1.items
      = [7, 8] ++ [1, 2, 3, 4].take 1 :=
  (bgLog_drop_policy.1
    { items := [7, 8], queueDropExceedingMaxsize := some 3,
      numDropped := 0, lastLoggedTimestamp := 0 } [1, 2, 3, 4] 0 3 rfl).1

/-! ## C2: span identity invariant -/

/-- **C2**: a root span (constructed without parent span ids) has
`root_span_id = span_id` and absent `span_parents`, both on the span
object and on its enqueued creation record; a child `B` created via
`A.startSpan` inherits `root_span_id = A.rootSpanId`, has
`span_parents = [A.spanId]`, and — since its fresh `span_id` is distinct
from every previously generated id, in particular from `A.rootSpanId` —
satisfies `root_span_id ≠ span_id`. -/
theorem spanImpl_identity :
    (∀ (eid : Option ℕ) (t : ℚ) (g : ℕ),
        (SpanImpl.create none eid t g).1.rootSpanId
            = (SpanImpl.create none eid t g).1.spanId
        ∧ (SpanImpl.create none eid t g).1.spanParents = none
        ∧ (SpanImpl.create none eid t g).2.1.root_span_id
            = (SpanImpl.create none eid t g).2.1.span_id
        ∧ (SpanImpl.create none eid t g).2.1.span_parents = none)
    ∧ (∀ (a : SpanImpl) (t : ℚ) (g : ℕ), a.spanId < g → a.rootSpanId < g →
        (a.startSpan t g).1.rootSpanId = a.rootSpanId
        ∧ (a.startSpan t g).1.spanParents = some [a.spanId]
        ∧ (a.startSpan t g).1.rootSpanId ≠ (a.startSpan t g).1.spanId
        ∧ (a.startSpan t g).2.1.root_span_id = a.rootSpanId
        ∧ (a.startSpan t g).2.1.span_parents = some [a.spanId]) := by
  constructor
  · intro eid t g
    cases eid <;>
      simp [SpanImpl.create, SpanImpl.logInternalMetrics, endTimeTruthy]
  · intro a t g h1 h2
    refine ⟨rfl, rfl, ?_, rfl, rfl⟩
    show a.rootSpanId ≠ g + 1
    omega

/-- Witness for `spanImpl_identity`: the root span generated from counter
`0` has ids below `5`, so its child started at counter `5` carries
`span_parents = [parent span id]` and distinct root/span ids. -/
theorem spanImpl_identity_witness :
    ((SpanImpl.create none none 1 0).1.startSpan 2 5).1.spanParents
      = some [(SpanImpl.create none none 1 0).1.spanId]
    ∧ ((SpanImpl.create none none 1 0).1.startSpan 2 5).1.rootSpanId
      ≠ ((SpanImpl.create none none 1 0).1.startSpan 2 5).1.spanId :=
  ⟨(spanImpl_identity.2 (SpanImpl.create none none 1 0).1 2 5 (by decide)
      (by decide)).2.1,
   (spanImpl_identity.2 (SpanImpl.create none none 1 0).1 2 5 (by decide)
      (by decide)).2.2.1⟩

/-! ## C3: idempotence of `end()` -/

/-- **C3** (counterexample): ending a span with an explicit end time of
`0` — falsy in JS — never records `loggedEndTime`, so a second `end()`
call enqueues a second record containing `metrics.end`, contradicting
"only the first call enqueues a record containing metrics.end (exactly one
end-metrics record is ever enqueued per span)". -/
theorem spanImpl_end_zero_counterexample :
    (((SpanImpl.create none none 1 0).1.endSpan (some 0) 5).2.2).hasMetricsEnd = true
    ∧ ((((SpanImpl.create none none 1 0).1.endSpan (some 0) 5).1.endSpan
          (some 0) 7).2.2).hasMetricsEnd = true
    ∧ (((SpanImpl.create none none 1 0).1.endSpan (some 0) 5).2.1 = 0)
    ∧ ((((SpanImpl.create none none 1 0).1.endSpan (some 0) 5).1.endSpan
          (some 0) 7).2.1 = 0) :=
  ⟨rfl, rfl, rfl, rfl⟩

/-- **C3** (amended): for a span not yet ended, `end()` returns
`args.endTime ?? now` and enqueues the only `metrics.end` record;
provided that recorded end time is truthy (nonzero), a second `end()`
leaves the span state unchanged, enqueues a merge record with no metrics
at all, and returns the previously logged end time. -/
theorem spanImpl_end_idempotent (s : SpanImpl) (argsEnd argsEnd' : Option ℚ)
    (now now' : ℚ) (h : s.loggedEndTime = none) (hnz : argsEnd.getD now ≠ 0) :
    ((s.endSpan argsEnd now).2.1 = argsEnd.getD now)
    ∧ ((s.endSpan argsEnd now).2.2.hasMetricsEnd = true)
    ∧ (((s.endSpan argsEnd now).1.endSpan argsEnd' now').2.1
        = (s.endSpan argsEnd now).2.1)
    ∧ (((s.endSpan argsEnd now).1.endSpan argsEnd' now').2.2.metrics = none)
    ∧ (((s.endSpan argsEnd now).1.endSpan argsEnd' now').1
        = (s.endSpan argsEnd now).1) := by
  simp [SpanImpl.endSpan, SpanImpl.logInternalMetrics, endTimeTruthy, h, hnz,
    SpanRecord.hasMetricsEnd]

/-! ## Lemmas: decomposing `validateAndSanitizeExperimentLogPartialArgs` -/

theorem validate_partial_scores_error {ev : LogEvent} {e : String}
    (h : checkScoresField ev.scores = .error e) :
    validateAndSanitizeExperimentLogPartialArgs ev = .error e := by
  unfold validateAndSanitizeExperimentLogPartialArgs
  rw [h]

theorem validate_partial_ok_decompose {ev ev' : LogEvent}
    (h : validateAndSanitizeExperimentLogPartialArgs ev = .ok ev') :
    ∃ so, checkScoresField ev.scores = .ok so
      ∧ checkMetricsField ev.metrics = .ok ()
      ∧ (fieldTruthy ev.input && fieldTruthy ev.inputs) = false
      ∧ checkTagsField ev.tags = .ok ()
      ∧ ((ev.inputs = none ∧ ev' = { ev with scores := so })
         ∨ (∃ iv, ev.inputs = some iv
              ∧ ev' = { ev with
                          scores := so
                          input := some (renamedInputVal ev.input iv)
                          inputs := none })) := by
  unfold validateAndSanitizeExperimentLogPartialArgs at h
  cases hs : checkScoresField ev.scores with
  | error e =>
    rw [hs] at h
    exact Except.noConfusion h
  | ok so =>
    rw [hs] at h
    simp only [checkMetadataField] at h
    cases hmet : checkMetricsField ev.metrics with
    | error e =>
      rw [hmet] at h
      exact Except.noConfusion h
    | ok u =>
      cases u
      rw [hmet] at h
      cases hcond : fieldTruthy ev.input && fieldTruthy ev.inputs with
      | true =>
        rw [hcond] at h
        simp only [if_true] at h
        exact Except.noConfusion h
      | false =>
        rw [hcond] at h
        simp only [Bool.false_eq_true, if_false] at h
        cases htags : checkTagsField ev.tags with
        | error e =>
          rw [htags] at h
          exact Except.noConfusion h
        | ok u2 =>
          cases u2
          rw [htags] at h
          cases hin : ev.inputs with
          | none =>
            rw [hin] at h
            injection h with h
            exact ⟨so, rfl, rfl, rfl, rfl, Or.inl ⟨rfl, h.symm⟩⟩
          | some iv =>
            rw [hin] at h
            injection h with h
            exact ⟨so, rfl, rfl, rfl, rfl, Or.inr ⟨iv, rfl, h.symm⟩⟩

theorem validate_partial_compose_none (ev : LogEvent) {so : Option JsVal}
    (hs : checkScoresField ev.scores = .ok so)
    (hm : checkMetricsField ev.metrics = .ok ())
    (hc : (fieldTruthy ev.input && fieldTruthy ev.inputs) = false)
    (ht : checkTagsField ev.tags = .ok ())
    (hn : ev.inputs = none) :
    validateAndSanitizeExperimentLogPartialArgs ev
      = .ok { ev with scores := so } := by
  unfold validateAndSanitizeExperimentLogPartialArgs
  rw [hs]
  simp only [checkMetadataField]
  rw [hm, hc]
  simp only [Bool.false_eq_true, if_false]
  rw [ht, hn]

theorem validate_partial_compose_some {ev : LogEvent} {so : Option JsVal}
    {iv : JsVal}
    (hs : checkScoresField ev.scores = .ok so)
    (hm : checkMetricsField ev.metrics = .ok ())
    (hc : (fieldTruthy ev.input && fieldTruthy ev.inputs) = false)
    (ht : checkTagsField ev.tags = .ok ())
    (hi : ev.inputs = some iv) :
    validateAndSanitizeExperimentLogPartialArgs ev
      = .ok { ev with
                scores := so
                input := some (renamedInputVal ev.input iv)
                inputs := none } := by
  unfold validateAndSanitizeExperimentLogPartialArgs
  rw [hs]
  simp only [checkMetadataField]
  rw [hm, hc]
  simp only [Bool.false_eq_true, if_false]
  rw [ht, hi]

/-- A successfully sanitized scores value sanitizes to itself again, and
stays truthy if it was truthy. -/
theorem sanitizeScoresVal_idem {v₀ v : JsVal}
    (h : sanitizeScoresVal v₀ = .ok v) :
    sanitizeScoresVal v = .ok v
      ∧ (JsVal.truthy v₀ = true → JsVal.truthy v = true) := by
  cases v₀ with
  | vArr xs => exact Except.noConfusion h
  | vObj es =>
    cases hse : sanitizeScoreEntries es with
    | error e =>
      simp only [sanitizeScoresVal, hse] at h
      exact Except.noConfusion h
    | ok out =>
      simp only [sanitizeScoresVal, hse] at h
      injection h with h
      subst h
      refine ⟨?_, fun _ => rfl⟩
      simp only [sanitizeScoresVal, sanitizeScoreEntries_idem hse]
  | vNull =>
    cases hse : sanitizeScoreEntries (jsEntries .vNull) with
    | error e =>
      simp only [sanitizeScoresVal, hse] at h
      exact Except.noConfusion h
    | ok out =>
      simp only [sanitizeScoresVal, hse] at h
      injection h with h
      subst h
      exact ⟨by simp only [sanitizeScoresVal, hse], fun hv => hv⟩
  | vUndefined =>
    cases hse : sanitizeScoreEntries (jsEntries .vUndefined) with
    | error e =>
      simp only [sanitizeScoresVal, hse] at h
      exact Except.noConfusion h
    | ok out =>
      simp only [sanitizeScoresVal, hse] at h
      injection h with h
      subst h
      exact ⟨by simp only [sanitizeScoresVal, hse], fun hv => hv⟩
  | vBool b =>
    cases hse : sanitizeScoreEntries (jsEntries (.vBool b)) with
    | error e =>
      simp only [sanitizeScoresVal, hse] at h
      exact Except.noConfusion h
    | ok out =>
      simp only [sanitizeScoresVal, hse] at h
      injection h with h
      subst h
      exact ⟨by simp only [sanitizeScoresVal, hse], fun hv => hv⟩
  | vNum q =>
    cases hse : sanitizeScoreEntries (jsEntries (.vNum q)) with
    | error e =>
      simp only [sanitizeScoresVal, hse] at h
      exact Except.noConfusion h
    | ok out =>
      simp only [sanitizeScoresVal, hse] at h
      injection h with h
      subst h
      exact ⟨by simp only [sanitizeScoresVal, hse], fun hv => hv⟩
  | vStr str =>
    cases hse : sanitizeScoreEntries (jsEntries (.vStr str)) with
    | error e =>
      simp only [sanitizeScoresVal, hse] at h
      exact Except.noConfusion h
    | ok out =>
      simp only [sanitizeScoresVal, hse] at h
      injection h with h
      subst h
      exact ⟨by simp only [sanitizeScoresVal, hse], fun hv => hv⟩

theorem checkScoresField_idem {f so : Option JsVal}
    (h : checkScoresField f = .ok so) :
    checkScoresField so = .ok so := by
  unfold checkScoresField at h ⊢
  by_cases hm : fieldTruthy f = true
  · rw [if_pos hm] at h
    cases hsv : sanitizeScoresVal (keyVal f) with
    | error e =>
      rw [hsv] at h
      exact Except.noConfusion h
    | ok v =>
      rw [hsv] at h
      injection h with h
      subst h
      obtain ⟨hidem, htr⟩ := sanitizeScoresVal_idem hsv
      have htr' : fieldTruthy (some v) = true := by
        have : JsVal.truthy (keyVal f) = true := hm
        exact htr this
      rw [if_pos htr']
      show (match sanitizeScoresVal v with
            | .error e => Except.error e
            | .ok v₁ => Except.ok (some v₁)) = Except.ok (some v)
      rw [hidem]
  · rw [if_neg hm] at h
    injection h with h
    subst h
    rw [if_neg hm]

/-! ## C5: score coercion and rejection -/

/-- **C5**: for an event whose `scores` field is an object: sanitization
succeeds exactly by coercing booleans (`true ↦ 1`, `false ↦ 0`) and
leaving other entries unchanged, with every entry `null`/`undefined`, a
boolean, or a number within `[0, 1]`; a numeric score outside `[0, 1]` is
rejected with a synchronous error, as is any score value that is defined
(neither `undefined` nor `null`) and neither boolean nor numeric; an
array supplied as `scores` is rejected. -/
theorem score_validation_spec :
    (∀ (ev ev' : LogEvent) (es : List (String × JsVal)),
        ev.scores = some (.vObj es) →
        validateAndSanitizeExperimentLogPartialArgs ev = .ok ev' →
        ev'.scores = some (.vObj (es.map scoreCoerce))
          ∧ ∀ p ∈ es, scoreOkB p.2 = true)
    ∧ (∀ (ev : LogEvent) (es : List (String × JsVal)) (n : String) (q : ℚ),
        ev.scores = some (.vObj es) → (n, .vNum q) ∈ es →
        (q < 0 ∨ 1 < q) →
        ∃ e, validateAndSanitizeExperimentLogPartialArgs ev = .error e)
    ∧ (∀ (ev : LogEvent) (es : List (String × JsVal)) (n : String) (v : JsVal),
        ev.scores = some (.vObj es) → (n, v) ∈ es →
        v ≠ .vNull → v ≠ .vUndefined → (∀ b, v ≠ .vBool b) → (∀ q, v ≠ .vNum q) →
        ∃ e, validateAndSanitizeExperimentLogPartialArgs ev = .error e)
    ∧ (∀ (ev : LogEvent) (xs : List JsVal),
        ev.scores = some (.vArr xs) →
        validateAndSanitizeExperimentLogPartialArgs ev
          = .error "scores must be an object, not an array")
    ∧ scoreCoerceV (.vBool true) = .vNum 1
    ∧ scoreCoerceV (.vBool false) = .vNum 0 := by
  refine ⟨?_, ?_, ?_, ?_, rfl, rfl⟩
  · intro ev ev' es hsc h
    obtain ⟨so, hs, _, _, _, hcase⟩ := validate_partial_ok_decompose h
    rw [hsc] at hs
    unfold checkScoresField at hs
    have htr : fieldTruthy (some (JsVal.vObj es)) = true := rfl
    rw [if_pos htr] at hs
    cases hse : sanitizeScoreEntries es with
    | error e =>
      simp only [keyVal, Option.getD_some, sanitizeScoresVal, hse] at hs
      exact Except.noConfusion hs
    | ok out =>
      simp only [keyVal, Option.getD_some, sanitizeScoresVal, hse] at hs
      injection hs with hs
      obtain ⟨hmap, hall⟩ := sanitizeScoreEntries_ok hse
      subst hmap
      have hsc' : ev'.scores = so := by
        rcases hcase with ⟨_, rfl⟩ | ⟨iv, _, rfl⟩ <;> rfl
      rw [hsc', ← hs]
      exact ⟨rfl, hall⟩
  · intro ev es n q hsc hmem hq
    cases hse : sanitizeScoreEntries es with
    | ok out =>
      obtain ⟨_, hall⟩ := sanitizeScoreEntries_ok hse
      have := hall (n, .vNum q) hmem
      simp only [scoreOkB, decide_eq_true_eq] at this
      rcases hq with hq | hq
      · exact absurd this.1 (by exact fun hge => absurd hq (not_lt.mpr hge))
      · exact absurd this.2 (not_le.mpr hq)
    | error e =>
      refine ⟨e, validate_partial_scores_error ?_⟩
      rw [hsc]
      unfold checkScoresField
      have htr : fieldTruthy (some (JsVal.vObj es)) = true := rfl
      rw [if_pos htr]
      show (match sanitizeScoresVal (JsVal.vObj es) with
            | .error e => Except.error e
            | .ok v => Except.ok (some v)) = Except.error e
      simp only [sanitizeScoresVal, hse]
  · intro ev es n v hsc hmem h1 h2 h3 h4
    cases hse : sanitizeScoreEntries es with
    | ok out =>
      obtain ⟨_, hall⟩ := sanitizeScoreEntries_ok hse
      have hOk := hall (n, v) hmem
      cases v with
      | vNull => exact absurd rfl h1
      | vUndefined => exact absurd rfl h2
      | vBool b => exact absurd rfl (h3 b)
      | vNum q => exact absurd rfl (h4 q)
      | vStr str => simp [scoreOkB] at hOk
      | vArr xs => simp [scoreOkB] at hOk
      | vObj oes => simp [scoreOkB] at hOk
    | error e =>
      refine ⟨e, validate_partial_scores_error ?_⟩
      rw [hsc]
      unfold checkScoresField
      have htr : fieldTruthy (some (JsVal.vObj es)) = true := rfl
      rw [if_pos htr]
      show (match sanitizeScoresVal (JsVal.vObj es) with
            | .error e => Except.error e
            | .ok v => Except.ok (some v)) = Except.error e
      simp only [sanitizeScoresVal, hse]
  · intro ev xs hsc
    apply validate_partial_scores_error
    rw [hsc]
    unfold checkScoresField
    have htr : fieldTruthy (some (JsVal.vArr xs)) = true := rfl
    rw [if_pos htr]
    rfl

/-- Witness for `score_validation_spec`: `{scores: {a: true}}` sanitizes
with the boolean coerced to `1`, and `{scores: {b: 1.5}}` is rejected. -/
theorem score_validation_spec_witness :
    (({ scores := some (.vObj [("a", JsVal.vNum 1)]) } : LogEvent).scores
        = some (.vObj ([("a", JsVal.vBool true)].map scoreCoerce))
      ∧ ∀ p ∈ [("a", JsVal.vBool true)], scoreOkB p.2 = true)
    ∧ (∃ e, validateAndSanitizeExperimentLogPartialArgs
          { scores := some (.vObj [("b", JsVal.vNum (3 / 2))]) } = .error e) :=
  ⟨score_validation_spec.1 { scores := some (.vObj [("a", .vBool true)]) }
      { scores := some (.vObj [("a", JsVal.vNum 1)]) }
      [("a", JsVal.vBool true)] rfl rfl,
   score_validation_spec.2.1 { scores := some (.vObj [("b", .vNum (3 / 2))]) }
      [("b", JsVal.vNum (3 / 2))] "b" (3 / 2) rfl (by simp) (by norm_num)⟩

/-! ## C9: idempotence of sanitization -/

/-- **C9**: sanitization is idempotent — whenever
`validateAndSanitizeExperimentLogPartialArgs` accepts an event, applying
it to its own output returns that output unchanged (boolean scores are
already numbers, `inputs` has already been renamed to `input`). -/
theorem sanitize_partial_idempotent (ev ev' : LogEvent)
    (h : validateAndSanitizeExperimentLogPartialArgs ev = .ok ev') :
    validateAndSanitizeExperimentLogPartialArgs ev' = .ok ev' := by
  obtain ⟨so, hs, hm, hc, ht, hcase⟩ := validate_partial_ok_decompose h
  have hs' : checkScoresField so = .ok so := checkScoresField_idem hs
  rcases hcase with ⟨hnone, rfl⟩ | ⟨iv, hsome, rfl⟩
  · exact validate_partial_compose_none
      { ev with scores := so } hs' hm hc ht hnone
  · refine validate_partial_compose_none
      { ev with
          scores := so
          input := some (renamedInputVal ev.input iv)
          inputs := none } hs' hm ?_ ht rfl
    simp [fieldTruthy, keyVal, JsVal.truthy]

/-- Witness for `sanitize_partial_idempotent`: the sanitized form of
`{inputs: 2, scores: {a: true}}` — namely `{input: 2, scores: {a: 1}}` —
sanitizes to itself. -/
theorem sanitize_partial_idempotent_witness :
    validateAndSanitizeExperimentLogPartialArgs
        { input := some (.vNum 2), scores := some (.vObj [("a", JsVal.vNum 1)]) }
      = .ok { input := some (.vNum 2),
              scores := some (.vObj [("a", JsVal.vNum 1)]) } :=
  sanitize_partial_idempotent
    { inputs := some (.vNum 2), scores := some (.vObj [("a", .vBool true)]) }
    { input := some (.vNum 2), scores := some (.vObj [("a", JsVal.vNum 1)]) }
    rfl

/-- Witness for `spanImpl_end_idempotent` at a freshly created root span
ended at time `5`. -/
theorem spanImpl_end_idempotent_witness :
    (((SpanImpl.create none none 1 0).1.endSpan (some 5) 9).1.endSpan
        none 11).2.1
      = ((SpanImpl.create none none 1 0).1.endSpan (some 5) 9).2.1 :=
  (spanImpl_end_idempotent (SpanImpl.create none none 1 0).1 (some 5) none 9 11
    rfl (by norm_num)).2.2.1


/-! ## Lemmas: the per-batch submission loop -/

theorem submitGo_attempts_le (p l : ℕ → Bool) (sync dir : Bool) :
    ∀ (fuel i : ℕ), (submitGo p l sync dir i fuel).attempts ≤ fuel := by
  intro fuel
  induction fuel with
  | zero => intro i; simp [submitGo]
  | succ fuel ih =>
    intro i
    simp only [submitGo]
    by_cases h1 : (if p i then true else l i) = true
    · simp only [h1, if_true]
      omega
    · have h1' : (if p i then true else l i) = false := by
        cases hp : p i <;> cases hl : l i <;> simp_all
      simp only [h1', Bool.false_eq_true, if_false]
      by_cases h2 : (!(fuel != 0) && sync) = true
      · simp only [h2, if_true]
        omega
      · have h2' : (!(fuel != 0) && sync) = false := by simpa using h2
        simp only [h2', Bool.false_eq_true, if_false]
        have := ih (i + 1)
        omega

theorem submitGo_all_fail (p l : ℕ → Bool) (sync dir : Bool)
    (hp : ∀ j, p j = false) (hl : ∀ j, l j = false) :
    ∀ (fuel i : ℕ), 0 < fuel →
      (submitGo p l sync dir i fuel).attempts = fuel
      ∧ (submitGo p l sync dir i fuel).delivered = false
      ∧ (submitGo p l sync dir i fuel).wroteFailedPayload = dir
      ∧ (submitGo p l sync dir i fuel).threw = sync := by
  intro fuel
  induction fuel with
  | zero => intro i h; omega
  | succ fuel ih =>
    intro i _
    simp only [submitGo, hp i, hl i, Bool.false_eq_true, if_false]
    by_cases hf : fuel = 0
    · subst hf
      cases sync <;> cases dir <;> simp [submitGo]
    · have hf' : (fuel != 0) = true := by simpa using hf
      simp only [hf', Bool.not_true, Bool.false_and, Bool.false_eq_true,
        if_false]
      obtain ⟨h1, h2, h3, h4⟩ := ih (i + 1) (Nat.pos_of_ne_zero hf)
      simp [h1, h2, h3, h4]

theorem submitGo_delivered_iff (p l : ℕ → Bool) (sync dir : Bool) :
    ∀ (fuel i : ℕ),
      (submitGo p l sync dir i fuel).delivered = true
        ↔ ∃ j, i ≤ j ∧ j < i + fuel ∧ (p j || l j) = true := by
  intro fuel
  induction fuel with
  | zero =>
    intro i
    simp only [submitGo]
    constructor
    · intro h
      simp at h
    · rintro ⟨j, h1, h2, _⟩
      omega
  | succ fuel ih =>
    intro i
    simp only [submitGo]
    by_cases hpi : p i = true
    · simp only [hpi, if_true]
      constructor
      · intro _
        exact ⟨i, Nat.le_refl i, by omega, by simp [hpi]⟩
      · intro _
        trivial
    · have hpi' : p i = false := by simpa using hpi
      simp only [hpi', Bool.false_eq_true, if_false]
      by_cases hli : l i = true
      · simp only [hli, if_true]
        constructor
        · intro _
          exact ⟨i, Nat.le_refl i, by omega, by simp [hli]⟩
        · intro _
          trivial
      · have hli' : l i = false := by simpa using hli
        simp only [hli', Bool.false_eq_true, if_false]
        by_cases hsc : (!(fuel != 0) && sync) = true
        · simp only [hsc, if_true]
          constructor
          · intro h
            simp at h
          · rintro ⟨j, h1, h2, hj⟩
            have hf0 : fuel = 0 := by
              by_contra hne
              have hne' : (fuel != 0) = true := by simpa using hne
              simp [hne'] at hsc
            subst hf0
            have hji : j = i := by omega
            subst hji
            simp [hpi', hli'] at hj
        · have hsc' : (!(fuel != 0) && sync) = false := by simpa using hsc
          simp only [hsc', Bool.false_eq_true, if_false]
          rw [ih (i + 1)]
          constructor
          · rintro ⟨j, h1, h2, hj⟩
            exact ⟨j, by omega, by omega, hj⟩
          · rintro ⟨j, h1, h2, hj⟩
            refine ⟨j, ?_, by omega, hj⟩
            rcases Nat.eq_or_lt_of_le h1 with heq | hlt
            · subst heq
              simp [hpi', hli'] at hj
            · omega

/-! ## C6: per-batch submission retry policy -/

/-- **C6**: a batch is attempted at most `numTries` (default 3) times;
an attempt succeeds iff the `logs3` post succeeds or — after its failure
— the fallback legacy `logs` post succeeds, so the batch is delivered iff
some attempt index below `numTries` has a succeeding primary or legacy
post; when every post fails, exactly `numTries` submission attempts run,
the batch is not delivered (it is dropped, never re-queued — the loop
returns without touching the queue), the payload is written to the
failed-payloads directory iff one is configured, and the final error is
rethrown iff in sync-flush mode. -/
theorem submitLogsRequest_retry_policy :
    (∀ (numTries : ℕ) (sync dir : Bool) (p l : ℕ → Bool),
        (submitLogsRequest numTries sync dir p l).attempts ≤ numTries)
    ∧ (∀ (numTries : ℕ) (sync dir : Bool) (p l : ℕ → Bool),
        (submitLogsRequest numTries sync dir p l).delivered = true
          ↔ ∃ i, i < numTries ∧ (p i || l i) = true)
    ∧ (∀ (numTries : ℕ) (sync dir : Bool) (p l : ℕ → Bool),
        (∀ j, p j = false) → (∀ j, l j = false) → 0 < numTries →
        (submitLogsRequest numTries sync dir p l).attempts = numTries
          ∧ (submitLogsRequest numTries sync dir p l).delivered = false
          ∧ (submitLogsRequest numTries sync dir p l).wroteFailedPayload = dir
          ∧ (submitLogsRequest numTries sync dir p l).threw = sync)
    ∧ defaultNumTries = 3 := by
  refine ⟨?_, ?_, ?_, rfl⟩
  · intro nt sync dir p l
    exact submitGo_attempts_le p l sync dir nt 0
  · intro nt sync dir p l
    have h := submitGo_delivered_iff p l sync dir nt 0
    simpa using h
  · intro nt sync dir p l hp hl h
    exact submitGo_all_fail p l sync dir hp hl nt 0 h

/-- Witness for `submitLogsRequest_retry_policy`: HTTP 500 on every post
(primary and legacy), retry count 3, failed-payloads directory
configured: exactly 3 attempts, the batch is dropped and the payload
written. -/
theorem submitLogsRequest_retry_policy_witness :
    (submitLogsRequest 3 false true (fun _ => false) (fun _ => false)).attempts
        = 3
    ∧ (submitLogsRequest 3 false true (fun _ => false)
        (fun _ => false)).delivered = false
    ∧ (submitLogsRequest 3 false true (fun _ => false)
        (fun _ => false)).wroteFailedPayload = true :=
  ⟨(submitLogsRequest_retry_policy.2.2.1 3 false true (fun _ => false)
      (fun _ => false) (fun _ => rfl) (fun _ => rfl) (by norm_num)).1,
   (submitLogsRequest_retry_policy.2.2.1 3 false true (fun _ => false)
      (fun _ => false) (fun _ => rfl) (fun _ => rfl) (by norm_num)).2.1,
   (submitLogsRequest_retry_policy.2.2.1 3 false true (fun _ => false)
      (fun _ => false) (fun _ => rfl) (fun _ => rfl) (by norm_num)).2.2.1⟩


/-! ## Lemmas: deferred-value resolution and the flush pass -/

theorem resolveAll_error_of_mem {cells : List LazyCell} {e : String}
    (h : Except.error e ∈ cells) :
    ∃ e', resolveAll cells = .error e' := by
  induction cells with
  | nil => cases h
  | cons c rest ih =>
    rcases List.mem_cons.mp h with rfl | hmem
    · exact ⟨e, rfl⟩
    · cases c with
      | error e₂ => exact ⟨e₂, rfl⟩
      | ok v =>
        obtain ⟨e', he'⟩ := ih hmem
        refine ⟨e', ?_⟩
        simp only [resolveAll, he']

theorem resolveAll_length {cells : List LazyCell} {vals : List ℕ}
    (h : resolveAll cells = .ok vals) : vals.length = cells.length := by
  induction cells generalizing vals with
  | nil =>
    simp only [resolveAll, Except.ok.injEq] at h
    simp [← h]
  | cons c rest ih =>
    cases c with
    | error e => exact Except.noConfusion h
    | ok v =>
      cases hr : resolveAll rest with
      | error e =>
        simp only [resolveAll, hr] at h
        exact Except.noConfusion h
      | ok vs =>
        simp only [resolveAll, hr] at h
        injection h with h
        subst h
        simp [ih hr]

theorem unwrapLazyValues_resolved {numTries : ℕ} (sync : Bool)
    {cells : List LazyCell} {vals : List ℕ}
    (h : resolveAll cells = .ok vals) (hnt : numTries ≠ 0) :
    unwrapLazyValues numTries sync cells
      = { tries := 1, delaysMs := []
          outcome := .ok (mergeRowBatchModel vals), droppedBatch := false } := by
  cases numTries with
  | zero => exact absurd rfl hnt
  | succ f =>
    show unwrapGo sync cells (f + 1) = _
    simp only [unwrapGo, h]

/-- One failed-and-retrying iteration of the `unwrapLazyValues` loop. -/
theorem unwrapGo_err_step {cells : List LazyCell} {e : String}
    (h : resolveAll cells = .error e) (sync : Bool) (f : ℕ)
    (hc : (!(f != 0) && sync) = false) :
    unwrapGo sync cells (f + 1)
      = { tries := (unwrapGo sync cells f).tries + 1
          delaysMs := 100 :: (unwrapGo sync cells f).delaysMs
          outcome := (unwrapGo sync cells f).outcome
          droppedBatch := (unwrapGo sync cells f).droppedBatch } := by
  simp only [unwrapGo, h, hc, Bool.false_eq_true, if_false]

theorem unwrapLazyValues_rejected_async {cells : List LazyCell} {e : String}
    (h : resolveAll cells = .error e) :
    ∀ numTries, unwrapLazyValues numTries false cells
      = { tries := numTries, delaysMs := List.replicate numTries 100
          outcome := .ok [], droppedBatch := true } := by
  intro numTries
  show unwrapGo false cells numTries = _
  induction numTries with
  | zero => rfl
  | succ f ih =>
    rw [unwrapGo_err_step h false f (by simp), ih]
    rfl

theorem unwrapLazyValues_rejected_sync {cells : List LazyCell} {e : String}
    (h : resolveAll cells = .error e) :
    ∀ numTries, numTries ≠ 0 → unwrapLazyValues numTries true cells
      = { tries := numTries, delaysMs := List.replicate (numTries - 1) 100
          outcome := .error e, droppedBatch := false } := by
  intro numTries
  show numTries ≠ 0 → unwrapGo true cells numTries = _
  induction numTries with
  | zero => intro h0; exact absurd rfl h0
  | succ f ih =>
    intro _
    cases f with
    | zero => simp [unwrapGo, h]
    | succ k =>
      have hc : (!((k + 1 : ℕ) != 0) && true) = false := by simp
      rw [unwrapGo_err_step h true (k + 1) hc, ih (Nat.succ_ne_zero k)]
      rfl

/-! ## C7: resolution retry, drop-on-exhaustion -/

/-- **C7** (counterexample): a drained queue holding a resolved record
(`ok 5`) next to a rejected one: after the 3 tries the whole drain is
dropped — `flushed = []` — so the already-resolved item is NOT flushed,
contradicting the claim that such items are still flushed. -/
theorem unwrap_drop_counterexample :
    (flushOnce 3 false [Except.ok 5, Except.error "boom"] []).flushed = []
    ∧ (flushOnce 3 false [Except.ok 5, Except.error "boom"] []).errored = false
    ∧ (unwrapLazyValues 3 false [Except.ok 5, Except.error "boom"]).tries = 3
    ∧ (unwrapLazyValues 3 false
        [Except.ok 5, Except.error "boom"]).droppedBatch = true :=
  ⟨rfl, rfl, rfl, rfl⟩

/-- **C7** (amended): resolution is attempted up to `numTries`
(constructor default 3) tries, with a 100ms delay after every failed try
(in particular between consecutive tries); one try suffices when every
cell resolves; if any cell is rejected, in async mode all `numTries`
tries run and then the whole drained batch — including its already
resolved items — is dropped with a warning (`[]` is returned, so the
flush pass flushes nothing from that drain); in sync-flush mode the final
failure is rethrown instead. -/
theorem unwrapLazyValues_policy :
    (∀ (numTries : ℕ) (sync : Bool) (cells : List LazyCell),
        (unwrapLazyValues numTries sync cells).tries ≤ numTries)
    ∧ (∀ (numTries : ℕ) (sync : Bool) (cells : List LazyCell)
        (vals : List ℕ),
        resolveAll cells = .ok vals → numTries ≠ 0 →
        unwrapLazyValues numTries sync cells
          = { tries := 1, delaysMs := []
              outcome := .ok (mergeRowBatchModel vals)
              droppedBatch := false })
    ∧ (∀ (numTries : ℕ) (cells : List LazyCell) (e : String),
        resolveAll cells = .error e →
        unwrapLazyValues numTries false cells
          = { tries := numTries, delaysMs := List.replicate numTries 100
              outcome := .ok [], droppedBatch := true })
    ∧ (∀ (numTries : ℕ) (cells : List LazyCell) (e : String),
        resolveAll cells = .error e → numTries ≠ 0 →
        unwrapLazyValues numTries true cells
          = { tries := numTries, delaysMs := List.replicate (numTries - 1) 100
              outcome := .error e, droppedBatch := false })
    ∧ (∀ (queue : List LazyCell) (e : String) (numTries : ℕ)
        (sched : List (List LazyCell × Bool)),
        Except.error e ∈ queue →
        (flushOnce numTries false queue sched).flushed = []
          ∧ (flushOnce numTries false queue sched).errored = false)
    ∧ defaultNumTries = 3 := by
  refine ⟨?_, ?_, ?_, ?_, ?_, rfl⟩
  · intro numTries sync cells
    show (unwrapGo sync cells numTries).tries ≤ numTries
    induction numTries with
    | zero => simp [unwrapGo]
    | succ f ih =>
      simp only [unwrapGo]
      cases hr : resolveAll cells with
      | ok vals => simp
      | error e =>
        by_cases hc : (!(f != 0) && sync) = true
        · simp only [hc, if_true]
          omega
        · have hc' : (!(f != 0) && sync) = false := by simpa using hc
          simp only [hc', Bool.false_eq_true, if_false]
          have := ih
          simp
          omega
  · intro numTries sync cells vals h hnt
    exact unwrapLazyValues_resolved sync h hnt
  · intro numTries cells e h
    exact unwrapLazyValues_rejected_async h numTries
  · intro numTries cells e h hnt
    exact unwrapLazyValues_rejected_sync h numTries hnt
  · intro queue e numTries sched hmem
    obtain ⟨e', he'⟩ := resolveAll_error_of_mem hmem
    have huw := unwrapLazyValues_rejected_async he' numTries
    show ((flushOnceGo numTries false (sched.length + 1) queue sched).flushed = [])
      ∧ ((flushOnceGo numTries false (sched.length + 1) queue sched).errored = false)
    simp only [flushOnceGo, huw]
    exact ⟨rfl, rfl⟩

/-- Witness for `unwrapLazyValues_policy`: the drain
`[ok 5, error "boom"]` with the default 3 tries in async mode runs all 3
tries and drops the batch. -/
theorem unwrapLazyValues_policy_witness :
    unwrapLazyValues 3 false [Except.ok 5, Except.error "boom"]
      = { tries := 3, delaysMs := List.replicate 3 100
          outcome := .ok [], droppedBatch := true } :=
  unwrapLazyValues_policy.2.2.1 3 [Except.ok 5, Except.error "boom"] "boom" rfl


/-! ## C8: drain-swap and recursive flush -/

theorem mergeRowBatchModel_isEmpty_false {queue : List LazyCell}
    {vals : List ℕ} (hq : resolveAll queue = .ok vals) (hnq : queue ≠ []) :
    (mergeRowBatchModel vals).isEmpty = false := by
  have hlen := resolveAll_length hq
  cases vals with
  | nil =>
    exfalso
    apply hnq
    have hq0 : queue.length = 0 := by
      simp only [List.length_nil] at hlen
      omega
    exact List.length_eq_zero.mp hq0
  | cons v vs => rfl

/-- A single successful pass over a nonempty queue with no concurrent
arrivals: the whole queue is drained, resolved, submitted, and the final
re-check observes the queue empty. -/
theorem flushOnceGo_one_pass (nt : ℕ) (queue : List LazyCell)
    (vals : List ℕ) (hq : resolveAll queue = .ok vals) (hnq : queue ≠ [])
    (hnt : nt ≠ 0) :
    flushOnceGo nt false 1 queue []
      = { flushed := mergeRowBatchModel vals, finalQueue := []
          observedEmpty := true, errored := false } := by
  have huw := unwrapLazyValues_resolved false hq hnt
  have hne := mergeRowBatchModel_isEmpty_false hq hnq
  simp [flushOnceGo, huw, hne]

/-- **C8** (counterexample): a queue whose single cell is rejected, with
one item arriving during the pass: the flush completes normally
(`errored = false`) with the arrived item still queued and with the queue
never observed empty — against "a flush is only considered done when the
queue has been observed empty at some instant". -/
theorem flushOnce_incomplete_counterexample :
    (flushOnce 3 false [Except.error "boom"]
        [([Except.ok 7], true)]).errored = false
    ∧ (flushOnce 3 false [Except.error "boom"]
        [([Except.ok 7], true)]).observedEmpty = false
    ∧ (flushOnce 3 false [Except.error "boom"]
        [([Except.ok 7], true)]).finalQueue = [Except.ok 7] :=
  ⟨rfl, rfl, rfl⟩

/-- **C8** (amended): every flush pass drains the entire queue, swapping
in a fresh empty queue; on a successful pass the pass submits everything
it drained and, when items arrived concurrently, recurses to flush them
too, completing only once the re-check observes the queue empty.
However, when resolution of the drained batch fails (the batch is
dropped), the pass returns early without re-checking the queue: it
completes normally with the concurrently arrived items still queued and
the queue never observed empty. -/
theorem flushOnce_drain_and_recursion :
    (∀ (numTries : ℕ) (queue : List LazyCell) (vals : List ℕ),
        resolveAll queue = .ok vals → queue ≠ [] → numTries ≠ 0 →
        flushOnce numTries false queue []
          = { flushed := mergeRowBatchModel vals, finalQueue := []
              observedEmpty := true, errored := false })
    ∧ (∀ (numTries : ℕ) (queue arrivals : List LazyCell)
        (vals avals : List ℕ),
        resolveAll queue = .ok vals → resolveAll arrivals = .ok avals →
        queue ≠ [] → arrivals ≠ [] → numTries ≠ 0 →
        flushOnce numTries false queue [(arrivals, true)]
          = { flushed := mergeRowBatchModel vals ++ mergeRowBatchModel avals
              finalQueue := [], observedEmpty := true, errored := false })
    ∧ (∀ (numTries : ℕ) (queue : List LazyCell) (e : String)
        (sched : List (List LazyCell × Bool)),
        Except.error e ∈ queue →
        flushOnce numTries false queue sched
          = { flushed := [], finalQueue := (sched.headD ([], true)).1
              observedEmpty := false, errored := false }) := by
  refine ⟨?_, ?_, ?_⟩
  · intro nt queue vals hq hnq hnt
    exact flushOnceGo_one_pass nt queue vals hq hnq hnt
  · intro nt queue arrivals vals avals hq ha hnq hna hnt
    have huw := unwrapLazyValues_resolved false hq hnt
    have hne := mergeRowBatchModel_isEmpty_false hq hnq
    have hae : arrivals.isEmpty = false := by
      cases arrivals with
      | nil => exact absurd rfl hna
      | cons c cs => rfl
    show flushOnceGo nt false 2 queue [(arrivals, true)] = _
    have hstep : flushOnceGo nt false 2 queue [(arrivals, true)]
        = { flushed := mergeRowBatchModel vals
              ++ (flushOnceGo nt false 1 arrivals []).flushed
            finalQueue := (flushOnceGo nt false 1 arrivals []).finalQueue
            observedEmpty := (flushOnceGo nt false 1 arrivals []).observedEmpty
            errored := (flushOnceGo nt false 1 arrivals []).errored } := by
      simp [flushOnceGo, huw, hne, hae]
    rw [hstep, flushOnceGo_one_pass nt arrivals avals ha hna hnt]
  · intro nt queue e sched hmem
    obtain ⟨e', he'⟩ := resolveAll_error_of_mem hmem
    have huw := unwrapLazyValues_rejected_async he' nt
    have hqe : queue.isEmpty = false := by
      cases queue with
      | nil => cases hmem
      | cons c cs => rfl
    show flushOnceGo nt false (sched.length + 1) queue sched = _
    simp [flushOnceGo, huw, hqe]

/-- Witness for `flushOnce_drain_and_recursion`: a pass over `[ok 1]`
with `[ok 2]` arriving concurrently flushes both and ends with the queue
observed empty. -/
theorem flushOnce_drain_and_recursion_witness :
    flushOnce 3 false [Except.ok 1] [([Except.ok 2], true)]
      = { flushed := mergeRowBatchModel [1] ++ mergeRowBatchModel [2]
          finalQueue := [], observedEmpty := true, errored := false } :=
  flushOnce_drain_and_recursion.2.1 3 [Except.ok 1] [Except.ok 2] [1] [2]
    rfl rfl (by simp) (by simp) (by norm_num)


/-! ## C10: toplevel `log` is guarded once spans are in use -/

/-- **C10**: before any `startSpan` call (`calledStartSpan = false`),
`Logger.log` / `Experiment.log` succeed on events their validators
accept; once `startSpan` has been called on the same object, a toplevel
`log` without `allowConcurrentWithSpans: true` throws synchronously
(returning the guard error before any validation or span creation, so
nothing is enqueued — the records list exists only in the `.ok` result);
passing `allowConcurrentWithSpans: true` lifts the guard. -/
theorem toplevel_log_guard :
    (∀ (st : ToplevelLogState) (ev ev' : LogEvent) (g : ℕ) (now : ℚ),
        st.calledStartSpan = false →
        validateAndSanitizeExperimentLogPartialArgs ev = .ok ev' →
        ∃ r, loggerLog st ev false g now = .ok r)
    ∧ (∀ (st : ToplevelLogState) (ev : LogEvent) (g g₀ : ℕ) (now : ℚ),
        loggerLog (toplevelStartSpan st g₀).1 ev false g now
          = .error "Cannot run toplevel `log` method while using spans. To log to the span, call `logger.traced` and then log with `span.log`")
    ∧ (∀ (st : ToplevelLogState) (ev ev' : LogEvent) (g : ℕ) (now : ℚ),
        validateAndSanitizeExperimentLogPartialArgs ev = .ok ev' →
        ∃ r, loggerLog st ev true g now = .ok r)
    ∧ (∀ (st : ToplevelLogState) (ev ev' ev'' : LogEvent) (hd : Bool)
        (g : ℕ) (now : ℚ),
        st.calledStartSpan = false →
        validateAndSanitizeExperimentLogFullArgs ev hd = .ok ev' →
        validateAndSanitizeExperimentLogPartialArgs ev' = .ok ev'' →
        ∃ r, experimentLog st ev false hd g now = .ok r)
    ∧ (∀ (st : ToplevelLogState) (ev : LogEvent) (hd : Bool) (g g₀ : ℕ)
        (now : ℚ),
        experimentLog (toplevelStartSpan st g₀).1 ev false hd g now
          = .error "Cannot run toplevel `log` method while using spans. To log to the span, call `experiment.traced` and then log with `span.log`")
    ∧ (∀ (st : ToplevelLogState) (ev ev' ev'' : LogEvent) (hd : Bool)
        (g : ℕ) (now : ℚ),
        validateAndSanitizeExperimentLogFullArgs ev hd = .ok ev' →
        validateAndSanitizeExperimentLogPartialArgs ev' = .ok ev'' →
        ∃ r, experimentLog st ev true hd g now = .ok r) := by
  refine ⟨?_, ?_, ?_, ?_, ?_, ?_⟩
  · intro st ev ev' g now h0 hval
    unfold loggerLog
    rw [if_neg (by simp [h0]), hval]
    exact ⟨_, rfl⟩
  · intro st ev g g₀ now
    unfold loggerLog
    rw [if_pos]
    exact ⟨rfl, by simp⟩
  · intro st ev ev' g now hval
    unfold loggerLog
    rw [if_neg (by simp), hval]
    exact ⟨_, rfl⟩
  · intro st ev ev' ev'' hd g now h0 hfull hpart
    unfold experimentLog
    rw [if_neg (by simp [h0]), hfull]
    dsimp only
    rw [hpart]
    exact ⟨_, rfl⟩
  · intro st ev hd g g₀ now
    unfold experimentLog
    rw [if_pos]
    exact ⟨rfl, by simp⟩
  · intro st ev ev' ev'' hd g now hfull hpart
    unfold experimentLog
    rw [if_neg (by simp), hfull]
    dsimp only
    rw [hpart]
    exact ⟨_, rfl⟩

/-- Witness for `toplevel_log_guard`: on a fresh logger the empty event
logs fine; after `startSpan` the same call throws the guard error; a
valid full event logs fine on a fresh experiment. -/
theorem toplevel_log_guard_witness :
    (∃ r, loggerLog { calledStartSpan := false, lastStartTime := 0 } {}
        false 0 5 = .ok r)
    ∧ loggerLog
        (toplevelStartSpan
          { calledStartSpan := false, lastStartTime := 0 } 0).1 {} false 3 5
      = .error "Cannot run toplevel `log` method while using spans. To log to the span, call `logger.traced` and then log with `span.log`"
    ∧ (∃ r, experimentLog { calledStartSpan := false, lastStartTime := 0 }
        { input := some (.vNum 1), output := some (.vNum 2)
          scores := some (.vObj []) } false false 0 5 = .ok r) :=
  ⟨toplevel_log_guard.1 { calledStartSpan := false, lastStartTime := 0 }
      {} {} 0 5 rfl rfl,
   toplevel_log_guard.2.1 { calledStartSpan := false, lastStartTime := 0 }
      {} 3 0 5,
   toplevel_log_guard.2.2.2.1 { calledStartSpan := false, lastStartTime := 0 }
      { input := some (.vNum 1), output := some (.vNum 2)
        scores := some (.vObj []) }
      { input := some (.vNum 1), output := some (.vNum 2)
        scores := some (.vObj []) }
      { input := some (.vNum 1), output := some (.vNum 2)
        scores := some (.vObj []) }
      false 0 5 rfl rfl rfl⟩

end BraintrustSdk
